/-
Shallow embedding of modules/prediction/evaluator/vehicle/junction_mlp_evaluator.cc
(class JunctionMLPEvaluator) and proofs about it.

Modelling conventions:
* C++ doubles are modelled as real numbers.
* std::atan2 y x is modelled as the argument of the complex number x + y i,
  which has the same range (-pi, pi] and the same value at every input,
  including atan2 0 0 = 0.
* Out-of-range std::vector reads (undefined behaviour in the source) are
  modelled as reads returning the default value 0.
* The gflag FLAGS_prediction_trajectory_time_resolution is the parameter rho;
  the sampling loop of SetJunctionFeatureValues is modelled by its exact list
  of sample instants 0, rho, 2 rho, ... (for rho > 0 the loop visits exactly
  these instants).
* std::unordered_map from std::string to double is modelled as a function
  from String to Option Real, updated pointwise (insert-or-assign semantics).
* Fatal CHECK failures are modelled by the value none of an Option result.
* Code of the repository that is outside src (math_util, Vec2d, AngleDiff and
  the feature-size constants of the header) is modelled from the spec; each
  such definition carries a doc comment saying so.
-/
import Mathlib

namespace JunctionMLP

open Real

noncomputable section

/-- Lean model of std::atan2 via the complex argument: atan2 y x = arg (x + y i). -/
def atan2 (y x : ℝ) : ℝ := Complex.arg ⟨x, y⟩

/-- Sector discretization of lines 121-122 and 270-271 of the source:
d = (angle / (2 pi)) * 12, add 12 when negative, then floor (the cast of the
already integral floor value to int is the identity). -/
def sectorIdx (angle : ℝ) : ℤ :=
  let d : ℝ := angle / (2 * π) * 12
  if 0 ≤ d then ⌊d⌋ else ⌊d + 12⌋

/-- Rotation of the displacement (x, y) into the obstacle-heading frame,
lines 265-266 of the source. -/
def rotateNegHeading (heading x y : ℝ) : ℝ × ℝ :=
  (Real.cos (-heading) * x - Real.sin (-heading) * y,
   Real.sin (-heading) * x + Real.cos (-heading) * y)

/-- Lean model of std::hypot. -/
def hypot (x y : ℝ) : ℝ := Real.sqrt (x * x + y * y)

/-- Modelled from the spec: apollo::common::math::AngleDiff (not under src) is
the signed smallest angular difference between the two headings, normalized to
the interval (-pi, pi]. -/
def angleDiff (src dst : ℝ) : ℝ :=
  (dst - src) - 2 * π * ⌈((dst - src) - π) / (2 * π)⌉

/-- Coefficients a0 + a1 t + a2 t^2 + a3 t^3 of a cubic polynomial. -/
structure Cubic where
  a0 : ℝ
  a1 : ℝ
  a2 : ℝ
  a3 : ℝ

/-- Modelled from the spec: math_util::ComputePolynomial of degree 3 (not under
src), the two-point Hermite cubic fit from start position ps with start
velocity vs to end position pe with end velocity ve over duration T. -/
def computePolynomial3 (ps vs pe ve T : ℝ) : Cubic :=
  { a0 := ps
    a1 := vs
    a2 := (3 * (pe - ps) - T * (2 * vs + ve)) / (T * T)
    a3 := (2 * (ps - pe) + T * (vs + ve)) / (T * T * T) }

/-- Modelled from the spec: math_util::EvaluateCubicPolynomial (not under src)
at derivative order 1. -/
def evalCubicDeriv1 (c : Cubic) (t : ℝ) : ℝ := c.a1 + 2 * c.a2 * t + 3 * c.a3 * t * t

/-- Modelled from the spec: math_util::EvaluateCubicPolynomial (not under src)
at derivative order 2. -/
def evalCubicDeriv2 (c : Cubic) (t : ℝ) : ℝ := 2 * c.a2 + 6 * c.a3 * t

/-- Sample instants of the while loop of lines 282-293 of the source:
t = 0, rho, 2 rho, ... while t is at most T. -/
def sampleTimes (T ρ : ℝ) : List ℝ :=
  if 0 ≤ T then (List.range (⌊T / ρ⌋₊ + 1)).map (fun k => (k : ℝ) * ρ) else []

/-- One curvature sample of lines 285-291 of the source. -/
def curvatureSample (xc yc : Cubic) (t : ℝ) : ℝ :=
  |evalCubicDeriv1 xc t * evalCubicDeriv2 yc t - evalCubicDeriv1 yc t * evalCubicDeriv2 xc t| /
    hypot (evalCubicDeriv1 xc t) (evalCubicDeriv1 yc t)

/-- The cost accumulation loop of lines 282-293 of the source. -/
def curvatureCost (xc yc : Cubic) (T ρ : ℝ) : ℝ :=
  (sampleTimes T ρ).foldl (fun c t => max c (curvatureSample xc yc t)) 0

/-- Curvature cost of one junction exit, lines 272-293 of the source: sp is the
clamped speed, (dx, dy) the rotated displacement, dh the heading difference and
T the exit time; the two Hermite cubics are fitted and sampled. -/
def exitCurvatureCost (sp dx dy dh T ρ : ℝ) : ℝ :=
  curvatureCost (computePolynomial3 0 sp dx (Real.cos dh * sp) T)
    (computePolynomial3 0 0 dy (Real.sin dh * sp) T) T ρ

/-- Modelled from the spec: math_util::Relu (not under src), RELU x = max 0 x. -/
def relu (x : ℝ) : ℝ := max 0 x

/-- Modelled from the spec: math_util::Sigmoid (not under src),
SIGMOID x = 1 / (1 + exp (-x)). -/
def sigmoid (x : ℝ) : ℝ := 1 / (1 + Real.exp (-x))

/-- Modelled from the spec: math_util::Softmax with use_exp10 false (not under
src): exponentiate every entry and normalize by the sum. -/
def softmax (v : List ℝ) : List ℝ :=
  v.map (fun x => Real.exp x / (v.map Real.exp).sum)

/-- Layer activation kinds of the model proto. -/
inductive ActivationFunc where
  | relu
  | sigmoid
  | tanh
  | softmax
deriving DecidableEq

/-- One network layer: weight matrix rows (rows index inputs, columns index
output neurons), bias vector and activation kind. -/
structure Layer where
  weights : List (List ℝ)
  bias : List ℝ
  act : ActivationFunc

/-- The model proto: declared input dimension and ordered layer list. -/
structure Model where
  dimInput : ℕ
  layers : List Layer

/-- One iteration of the layer loop of lines 325-351 of the source, acting on
the running layer input. The number of output neurons is the column count of
weight row 0 (rows(0).columns_size()); out-of-range reads are modelled as 0.
SOFTMAX layers accumulate without per-neuron activation and the whole output
is replaced by its softmax afterwards. -/
def layerForward (input : List ℝ) (layer : Layer) : List ℝ :=
  let cols := (layer.weights.headD []).length
  let raw := (List.range cols).map (fun col =>
    let acc := layer.bias.getD col 0 +
      ((List.range layer.weights.length).map
        (fun row => input.getD row 0 * ((layer.weights.getD row []).getD col 0))).sum
    match layer.act with
    | .relu => relu acc
    | .sigmoid => sigmoid acc
    | .tanh => Real.tanh acc
    | .softmax => acc)
  if layer.act = .softmax then softmax raw else raw

/-- ComputeProbability, lines 313-353 of the source. Note that the source
declares layer_input as an empty vector, only reserves capacity for it and
never copies feature_values into it, so the first layer loop reads layer_input
out of range (modelled as default-0 reads): the result never depends on the
entries of feature_values, only on its length. -/
def computeProbability (model : Model) (featureValues : List ℝ) : List ℝ :=
  if model.dimInput ≠ featureValues.length then []
  else model.layers.foldl layerForward []

/-- The forward pass exactly as the spec (section 4.4) describes it, for
comparison with computeProbability: identical except that the first layer
reads the given feature vector. -/
def computeProbabilityAsSpecified (model : Model) (featureValues : List ℝ) : List ℝ :=
  if model.dimInput ≠ featureValues.length then []
  else model.layers.foldl layerForward featureValues

/-- JunctionExit proto message. -/
structure JunctionExit where
  exitPosition : ℝ × ℝ
  exitHeading : ℝ
  exitLaneId : String

/-- JunctionFeature proto message (the fields the evaluator touches). -/
structure JunctionFeature where
  junctionId : String
  junctionRange : ℝ
  junctionExit : List JunctionExit
  junctionMlpProbability : List ℝ

/-- LaneSegment proto message (the field the evaluator reads). -/
structure LaneSegment where
  laneId : String

/-- LaneSequence proto message. -/
structure LaneSequence where
  laneSegment : List LaneSegment
  probability : ℝ

/-- The obstacle Feature proto message (the fields the evaluator touches).
laneGraph stands for feature.lane().lane_graph().lane_sequence(). Proto fields
whose presence the source tests carry an Option. -/
structure Feature where
  position : Option (ℝ × ℝ)
  rawVelocity : ℝ × ℝ
  velocityHeading : ℝ
  speed : ℝ
  acc : ℝ
  junctionFeature : Option JunctionFeature
  laneGraph : List LaneSequence

/-- Proto getter for position: an unset field reads as the default (0, 0). -/
def posD (f : Feature) : ℝ × ℝ := f.position.getD (0, 0)

/-- Proto getter junction_feature().junction_range(): default 0 when unset. -/
def junctionRangeD (f : Feature) : ℝ :=
  (f.junctionFeature.map JunctionFeature.junctionRange).getD 0

/-- Ego pose content (position and velocity) of the pose container. -/
structure PosVel where
  pos : ℝ × ℝ
  vel : ℝ × ℝ

/-- SetObstacleFeatureValues, lines 185-197 of the source. -/
def setObstacleFeatureValues (f : Feature) : List ℝ :=
  match f.position with
  | none => []
  | some _ => [f.speed, f.acc, junctionRangeD f]

/-- Modelled from the spec: common::math::Vec2d::rotate (not under src)
rotates the vector by the given angle. -/
def rotateVec (v : ℝ × ℝ) (θ : ℝ) : ℝ × ℝ :=
  (v.1 * Real.cos θ - v.2 * Real.sin θ, v.1 * Real.sin θ + v.2 * Real.cos θ)

/-- SetEgoVehicleFeatureValues, lines 199-231 of the source. The ego pose
container may be unavailable (none); the CHECK_GT(history_size, 0) contract
fault in the available branch is the none result. -/
def setEgoVehicleFeatureValues (egoPose : Option PosVel) (historySize : ℕ)
    (f : Feature) : Option (List ℝ) :=
  match egoPose with
  | none => some [100, 100, 0, 0]
  | some pv =>
    if historySize = 0 then none
    else
      let rp : ℝ × ℝ := (pv.pos.1 - (posD f).1, pv.pos.2 - (posD f).2)
      let rv := rotateVec pv.vel (-f.velocityHeading)
      some [rp.1, rp.2, rv.1, rv.2]

/-- The 12 sectors of neutral defaults pushed by lines 251-258 of the source. -/
def junctionFeatureBase : List ℝ := (List.replicate 12 ([0, 1, 1, 1, 0, 0] : List ℝ)).flatten

/-- The per-exit body of the loop of lines 260-301 of the source. -/
def processExit (pos : ℝ × ℝ) (heading speed range ρ : ℝ)
    (acc : List ℝ) (ex : JunctionExit) : List ℝ :=
  let x := ex.exitPosition.1 - pos.1
  let y := ex.exitPosition.2 - pos.2
  let d := rotateNegHeading heading x y
  let dh := angleDiff heading ex.exitHeading
  let idx := (sectorIdx (atan2 d.2 d.1)).toNat
  let sp := max 0.1 speed
  let exitTime := hypot d.1 d.2 / sp
  let cost := exitCurvatureCost sp d.1 d.2 dh exitTime ρ
  ((((((acc.set (idx * 6) 1).set (idx * 6 + 1) (d.1 / range)).set (idx * 6 + 2)
    (d.2 / range)).set (idx * 6 + 3)
    (Real.sqrt (d.1 * d.1 + d.2 * d.2) / range)).set (idx * 6 + 4) dh).set (idx * 6 + 5) cost)

/-- SetJunctionFeatureValues, lines 233-302 of the source. -/
def setJunctionFeatureValues (ρ : ℝ) (f : Feature) : List ℝ :=
  match f.position with
  | none => []
  | some pos =>
    let heading := atan2 f.rawVelocity.2 f.rawVelocity.1
    match f.junctionFeature with
    | none => []
    | some jf =>
      jf.junctionExit.foldl (processExit pos heading f.speed jf.junctionRange ρ)
        junctionFeatureBase

/-- Modelled from the spec: OBSTACLE_FEATURE_SIZE of the header (not under src)
is 3. -/
def OBSTACLE_FEATURE_SIZE : ℕ := 3

/-- Modelled from the spec: EGO_VEHICLE_FEATURE_SIZE of the header (not under
src) is 4. -/
def EGO_VEHICLE_FEATURE_SIZE : ℕ := 4

/-- Modelled from the spec: JUNCTION_FEATURE_SIZE of the header (not under src)
is 72 (12 sectors of 6 fields). -/
def JUNCTION_FEATURE_SIZE : ℕ := 72

/-- ExtractFeatureValues, lines 143-183 of the source: the caller passes an
empty vector and each early return leaves it empty (modelled as some []); a
fatal contract fault inside the ego extractor propagates as none. -/
def extractFeatureValues (ρ : ℝ) (egoPose : Option PosVel) (historySize : ℕ)
    (f : Feature) : Option (List ℝ) :=
  let obstacleValues := setObstacleFeatureValues f
  if obstacleValues.length ≠ OBSTACLE_FEATURE_SIZE then some []
  else
    match setEgoVehicleFeatureValues egoPose historySize f with
    | none => none
    | some egoValues =>
      if egoValues.length ≠ EGO_VEHICLE_FEATURE_SIZE then some []
      else
        let junctionValues := setJunctionFeatureValues ρ f
        if junctionValues.length ≠ JUNCTION_FEATURE_SIZE then some []
        else some (obstacleValues ++ egoValues ++ junctionValues)

/-- Sector index of an exit as the blending loop of lines 114-122 of the source
computes it: world displacement angle minus raw-velocity angle. -/
def sectorIndexBlend (pos vel exitPos : ℝ × ℝ) : ℤ :=
  sectorIdx (atan2 (exitPos.2 - pos.2) (exitPos.1 - pos.1) - atan2 vel.2 vel.1)

/-- Sector index of an exit as SetJunctionFeatureValues computes it, lines
263-271 of the source: displacement rotated into the obstacle-heading frame. -/
def sectorIndexJunction (pos vel exitPos : ℝ × ℝ) : ℤ :=
  let d := rotateNegHeading (atan2 vel.2 vel.1) (exitPos.1 - pos.1) (exitPos.2 - pos.2)
  sectorIdx (atan2 d.2 d.1)

/-- prev_idx of line 123 of the source. -/
def prevIdx (idx : ℤ) : ℤ := if idx = 0 then 11 else idx - 1

/-- post_idx of line 124 of the source. -/
def postIdx (idx : ℤ) : ℤ := if idx = 11 then 0 else idx + 1

/-- The smoothed probability of lines 125-127 of the source; out-of-range
vector reads are modelled as 0. -/
def blendVal (p : List ℝ) (idx : ℤ) : ℝ :=
  p.getD idx.toNat 0 * 0.5 + p.getD (prevIdx idx).toNat 0 * 0.25 +
    p.getD (postIdx idx).toNat 0 * 0.25

/-- The junction_exit_prob map built by lines 111-128 of the source. -/
def junctionExitProb (exits : List JunctionExit) (pos vel : ℝ × ℝ)
    (p : List ℝ) : String → Option ℝ :=
  exits.foldl
    (fun m ex =>
      Function.update m ex.exitLaneId
        (some (blendVal p (sectorIndexBlend pos vel ex.exitPosition))))
    (fun _ => none)

/-- The per-sequence segment scan of lines 130-140 of the source. -/
def assignLaneSeq (m : String → Option ℝ) (s : LaneSequence) : LaneSequence :=
  s.laneSegment.foldl
    (fun acc seg =>
      match m seg.laneId with
      | some v => { acc with probability := v }
      | none => acc) s

/-- Evaluate, lines 60-141 of the source, on the latest feature (the
null-obstacle and missing-latest-feature guards live in the Obstacle wrapper
below). Parameters: the loaded model, the trajectory time resolution, the ego
pose container content, the obstacle history size and the value of
FLAGS_prediction_offline_mode. -/
def evaluateF (model : Model) (ρ : ℝ) (egoPose : Option PosVel)
    (historySize : ℕ) (offlineMode : ℤ) (f : Feature) : Option Feature :=
  match f.junctionFeature with
  | none => some f
  | some jf =>
    if jf.junctionExit.length < 1 then some f
    else
      match extractFeatureValues ρ egoPose historySize f with
      | none => none
      | some featureValues =>
        if offlineMode = 2 then some f
        else
          let probability : List ℝ :=
            if 1 < jf.junctionExit.length then computeProbability model featureValues
            else (List.range 12).map (fun i => featureValues.getD (3 + 6 * i) 0)
          let jf1 :=
            { jf with junctionMlpProbability := jf.junctionMlpProbability ++ probability }
          let f1 := { f with junctionFeature := some jf1 }
          if f.laneGraph.length = 0 then some f1
          else
            let m := junctionExitProb jf.junctionExit (posD f) f.rawVelocity probability
            some { f1 with laneGraph := f1.laneGraph.map (assignLaneSeq m) }

/-- An obstacle: id, history size and optional latest feature. -/
structure Obstacle where
  id : ℤ
  historySize : ℕ
  latestFeature : Option Feature

/-- Evaluate including the guard of lines 65-68 of the source: an obstacle
without an initialized latest feature is returned unchanged. -/
def evaluate (model : Model) (ρ : ℝ) (egoPose : Option PosVel)
    (offlineMode : ℤ) (ob : Obstacle) : Option Obstacle :=
  match ob.latestFeature with
  | none => some ob
  | some f =>
    (evaluateF model ρ egoPose ob.historySize offlineMode f).map
      (fun f1 => { ob with latestFeature := some f1 })

/-- A model whose declared input dimension 5 cannot match the assembled
79-value feature vector. -/
def mismatchModel : Model := { dimInput := 5, layers := [] }

/-- A one-layer RELU model with input dimension 1, weight matrix [[1]] and
bias [0]: as specified it is relu on one input value. -/
def tinyModel : Model :=
  { dimInput := 1, layers := [{ weights := [[1]], bias := [0], act := .relu }] }

/-- A junction exit one unit ahead of the origin, heading along +x, lane L1. -/
def exitAhead : JunctionExit :=
  { exitPosition := (1, 0), exitHeading := 0, exitLaneId := "L1" }

/-- A junction exit one unit to the left of the origin, heading along +x,
lane L2. -/
def exitLeft : JunctionExit :=
  { exitPosition := (0, 1), exitHeading := 0, exitLaneId := "L2" }

/-- A lane sequence through lane L1 with prior probability 1/2. -/
def seqL1 : LaneSequence := { laneSegment := [⟨"L1"⟩], probability := 1 / 2 }

/-- Single-exit obstacle feature: at the origin, moving along +x at unit
speed, one exit ahead, empty lane graph. -/
def featSingleExit : Feature :=
  { position := some (0, 0), rawVelocity := (1, 0), velocityHeading := 0, speed := 1,
    acc := 0,
    junctionFeature := some
      { junctionId := "J", junctionRange := 1,
        junctionExit := [exitAhead], junctionMlpProbability := [] },
    laneGraph := [] }

/-- Two-exit obstacle feature with one lane sequence through lane L1. -/
def featTwoExit : Feature :=
  { featSingleExit with
    junctionFeature := some
      { junctionId := "J", junctionRange := 1,
        junctionExit := [exitAhead, exitLeft], junctionMlpProbability := [] },
    laneGraph := [seqL1] }

/-- Single-exit obstacle feature without a position, with one lane sequence
through lane L1. -/
def featNoPosition : Feature :=
  { featSingleExit with position := none, laneGraph := [seqL1] }

/-- The 12-entry probability sequence with all mass in sector 0. -/
def pSectorZero : List ℝ := [1, 0, 0, 0, 0, 0, 0, 0, 0, 0, 0, 0]

/-- A junction exit one unit ahead of the origin, heading +x, lane L (shares
its lane id with exitLeftL). -/
def exitAheadL : JunctionExit :=
  { exitPosition := (1, 0), exitHeading := 0, exitLaneId := "L" }

/-- A junction exit one unit to the left of the origin, heading +x, lane L
(shares its lane id with exitAheadL). -/
def exitLeftL : JunctionExit :=
  { exitPosition := (0, 1), exitHeading := 0, exitLaneId := "L" }

/-- Statement helper: the probability left by scanning segment list l over
keyed map m starting from the prior r — the value of the last matching
segment, or r when no segment matches. -/
def lastMatchProb (m : String → Option ℝ) (l : List LaneSegment) (r : ℝ) : ℝ :=
  ((l.filter (fun sg => (m sg.laneId).isSome)).getLast?).elim r
    (fun sg => (m sg.laneId).getD 0)

/-- Statement helper: the junction_exit_prob entry the exit list leaves for
lane id lid given initial entry e0 — the blend value of the last exit bearing
lid, or e0 when no exit bears it. -/
def lastExitEntry (pos vel : ℝ × ℝ) (p : List ℝ) (lid : String)
    (exits : List JunctionExit) (e0 : Option ℝ) : Option ℝ :=
  ((exits.filter (fun ex => ex.exitLaneId == lid)).getLast?).elim e0
    (fun ex => some (blendVal p (sectorIndexBlend pos vel ex.exitPosition)))

/-- A keyed-exit map holding 7/10 for lane A only. -/
def mapA : String → Option ℝ := fun sid => if sid = "A" then some (7 / 10) else none

/-- A lane sequence through lanes B then A with prior probability 1/2. -/
def seqAB : LaneSequence := { laneSegment := [⟨"B"⟩, ⟨"A"⟩], probability := 1 / 2 }

end

/-! Helper lemmas shared by the claim theorems. -/

section Helpers

/-- A fold of max never goes below its initial accumulator. -/
theorem le_foldl_max {α : Type} (f : α → ℝ) :
    ∀ (l : List α) (c : ℝ), c ≤ l.foldl (fun a t => max a (f t)) c := by
  intro l
  induction l with
  | nil => intro c; simp
  | cons x xs ih => intro c; exact le_trans (le_max_left c (f x)) (ih (max c (f x)))

/-- A fold of max over everywhere-zero samples stays zero. -/
theorem foldl_max_zero {α : Type} (f : α → ℝ) :
    ∀ l : List α, (∀ x ∈ l, f x = 0) → l.foldl (fun a t => max a (f t)) 0 = 0 := by
  intro l
  induction l with
  | nil => intro _; rfl
  | cons x xs ih =>
    intro h
    have hx : f x = 0 := h x (List.mem_cons_self x xs)
    simp only [List.foldl_cons, hx, max_self]
    exact ih fun y hy => h y (List.mem_cons_of_mem x hy)

/-- The sector discretization lands in 0..11 on angles strictly between
-2 pi and 2 pi. -/
theorem sectorIdx_mem (a : ℝ) (h1 : -(2 * π) < a) (h2 : a < 2 * π) :
    0 ≤ sectorIdx a ∧ sectorIdx a ≤ 11 := by
  have hpi : (0 : ℝ) < π := Real.pi_pos
  have h2pi : (0 : ℝ) < 2 * π := by linarith
  have hdlt : a / (2 * π) * 12 < 12 := by
    have h := (div_lt_one h2pi).mpr h2
    nlinarith
  have hdgt : -12 < a / (2 * π) * 12 := by
    have h : (-1 : ℝ) < a / (2 * π) := (lt_div_iff₀ h2pi).mpr (by linarith)
    nlinarith
  rw [sectorIdx]
  split_ifs with h0
  · refine ⟨Int.floor_nonneg.mpr h0, ?_⟩
    have : ⌊a / (2 * π) * 12⌋ < 12 := Int.floor_lt.mpr (by exact_mod_cast hdlt)
    omega
  · push_neg at h0
    refine ⟨Int.floor_nonneg.mpr (by linarith), ?_⟩
    have : ⌊a / (2 * π) * 12 + 12⌋ < 12 := Int.floor_lt.mpr (by push_cast; linarith)
    omega

/-- The code atan2 always lies in the interval (-pi, pi]. -/
theorem atan2_mem (y x : ℝ) : -π < atan2 y x ∧ atan2 y x ≤ π :=
  ⟨Complex.neg_pi_lt_arg _, Complex.arg_le_pi _⟩

/-- The blending-loop sector index is always between 0 and 11. -/
theorem sectorIndexBlend_mem (pos vel exitPos : ℝ × ℝ) :
    0 ≤ sectorIndexBlend pos vel exitPos ∧ sectorIndexBlend pos vel exitPos ≤ 11 := by
  have h1 := atan2_mem (exitPos.2 - pos.2) (exitPos.1 - pos.1)
  have h2 := atan2_mem vel.2 vel.1
  exact sectorIdx_mem _ (by linarith [h1.1, h1.2, h2.1, h2.2])
    (by linarith [h1.1, h1.2, h2.1, h2.2])

/-- The junction-feature sector index is always between 0 and 11. -/
theorem sectorIndexJunction_mem (pos vel exitPos : ℝ × ℝ) :
    0 ≤ sectorIndexJunction pos vel exitPos ∧ sectorIndexJunction pos vel exitPos ≤ 11 := by
  have hpi : (0 : ℝ) < π := Real.pi_pos
  have h1 := atan2_mem
    (rotateNegHeading (atan2 vel.2 vel.1) (exitPos.1 - pos.1) (exitPos.2 - pos.2)).2
    (rotateNegHeading (atan2 vel.2 vel.1) (exitPos.1 - pos.1) (exitPos.2 - pos.2)).1
  exact sectorIdx_mem _ (by linarith [h1.1, h1.2]) (by linarith [h1.1, h1.2])

/-- Adding a full turn to a negative angle in (-2 pi, 0) does not change its
sector. -/
theorem sectorIdx_add_two_pi (a : ℝ) (ha1 : -(2 * π) < a) (ha2 : a < 0) :
    sectorIdx (a + 2 * π) = sectorIdx a := by
  have hpi : (0 : ℝ) < π := Real.pi_pos
  have h2pi : (0 : ℝ) < 2 * π := by linarith
  have key : (a + 2 * π) / (2 * π) * 12 = a / (2 * π) * 12 + 12 := by
    field_simp
    ring
  rw [sectorIdx, sectorIdx, key]
  have hd0 : a / (2 * π) * 12 < 0 := by
    have h : a / (2 * π) < 0 := div_neg_of_neg_of_pos ha2 h2pi
    nlinarith
  have hd12 : 0 ≤ a / (2 * π) * 12 + 12 := by
    have h : (-1 : ℝ) < a / (2 * π) := (lt_div_iff₀ h2pi).mpr (by linarith)
    nlinarith
  rw [if_pos hd12, if_neg (not_le.mpr hd0)]

/-- Two angles that agree modulo 2 pi, one in (-pi, pi] and one in
(-2 pi, 2 pi), have the same sector. -/
theorem sectorIdx_eq_of_angle_eq (a b : ℝ) (hab : (a : Real.Angle) = (b : Real.Angle))
    (ha1 : -π < a) (ha2 : a ≤ π) (hb1 : -(2 * π) < b) (hb2 : b < 2 * π) :
    sectorIdx b = sectorIdx a := by
  have hpi : (0 : ℝ) < π := Real.pi_pos
  obtain ⟨k, hk⟩ := Real.Angle.angle_eq_iff_two_pi_dvd_sub.mp hab
  have hk3 : k = -1 ∨ k = 0 ∨ k = 1 := by
    have h1 : a - b < 3 * π := by linarith
    have h2 : -(3 * π) < a - b := by linarith
    rw [hk] at h1 h2
    have hklt : (k : ℝ) < 2 := by nlinarith
    have hkgt : (-2 : ℝ) < (k : ℝ) := by nlinarith
    have hklt2 : k < 2 := by exact_mod_cast hklt
    have hkgt2 : -2 < k := by exact_mod_cast hkgt
    omega
  rcases hk3 with h | h | h
  · subst h
    have hb : b = a + 2 * π := by
      push_cast at hk
      linarith
    have ha0 : a < 0 := by
      rw [hb] at hb2
      linarith
    rw [hb, sectorIdx_add_two_pi a (by linarith) ha0]
  · subst h
    have hb : b = a := by
      push_cast at hk
      linarith
    rw [hb]
  · subst h
    have hb : b = a - 2 * π := by
      push_cast at hk
      linarith
    have ha0 : 0 < a := by
      rw [hb] at hb1
      linarith
    have := sectorIdx_add_two_pi (a - 2 * π) (by linarith) (by linarith)
    rw [hb, ← this]
    norm_num

/-- A complex number made of a nonzero coordinate pair is nonzero. -/
theorem mk_ne_zero_of_pair (x y : ℝ) (h : ¬(x = 0 ∧ y = 0)) : (⟨x, y⟩ : ℂ) ≠ 0 := by
  intro h0
  rw [Complex.ext_iff] at h0
  exact h ⟨by simpa using h0.1, by simpa using h0.2⟩

/-- The rotated displacement is the complex product with the unit rotation. -/
theorem rotate_mk (h x y : ℝ) :
    (⟨(rotateNegHeading h x y).1, (rotateNegHeading h x y).2⟩ : ℂ) =
      (⟨x, y⟩ : ℂ) * ⟨Real.cos (-h), Real.sin (-h)⟩ := by
  rw [Complex.ext_iff]
  constructor <;> simp [rotateNegHeading, Complex.mul_re, Complex.mul_im] <;> ring

/-- The two sector computations of the source agree on every nonzero
displacement: the rotated-frame angle and the difference of world angles agree
modulo 2 pi, and the discretization respects that congruence. -/
theorem sector_core (x y vx vy : ℝ) (h : ¬(x = 0 ∧ y = 0)) :
    sectorIdx (atan2 y x - atan2 vy vx) =
      sectorIdx (atan2 (rotateNegHeading (atan2 vy vx) x y).2
        (rotateNegHeading (atan2 vy vx) x y).1) := by
  have hb1 := atan2_mem y x
  have hb2 := atan2_mem vy vx
  have hpi := Real.pi_pos
  set hd := atan2 vy vx with hhd
  have hz : (⟨x, y⟩ : ℂ) ≠ 0 := mk_ne_zero_of_pair x y h
  have hu_eq : (⟨Real.cos (-hd), Real.sin (-hd)⟩ : ℂ) =
      ↑(Real.cos (-hd)) + ↑(Real.sin (-hd)) * Complex.I := Complex.mk_eq_add_mul_I _ _
  have hu : (⟨Real.cos (-hd), Real.sin (-hd)⟩ : ℂ) ≠ 0 := by
    intro h0
    rw [Complex.ext_iff] at h0
    have hc : Real.cos (-hd) = 0 := by simpa using h0.1
    have hs : Real.sin (-hd) = 0 := by simpa using h0.2
    have hsc := Real.sin_sq_add_cos_sq (-hd)
    rw [hc, hs] at hsc
    norm_num at hsc
  have hargu : ((Complex.arg (⟨Real.cos (-hd), Real.sin (-hd)⟩ : ℂ) : ℝ) : Real.Angle) =
      ((-hd : ℝ) : Real.Angle) := by
    rw [hu_eq]
    have h2 := Complex.arg_cos_add_sin_mul_I_coe_angle ((-hd : ℝ) : Real.Angle)
    rw [Real.Angle.cos_coe, Real.Angle.sin_coe] at h2
    exact h2
  have hangle : ((Complex.arg ((⟨x, y⟩ : ℂ) * ⟨Real.cos (-hd), Real.sin (-hd)⟩) : ℝ) :
      Real.Angle) = ((Complex.arg (⟨x, y⟩ : ℂ) - hd : ℝ) : Real.Angle) := by
    rw [Complex.arg_mul_coe_angle hz hu, hargu, sub_eq_add_neg, Real.Angle.coe_add,
      Real.Angle.coe_neg]
  have hxy : atan2 y x = Complex.arg ⟨x, y⟩ := rfl
  have hrot_arg : atan2 (rotateNegHeading hd x y).2 (rotateNegHeading hd x y).1 =
      Complex.arg ((⟨x, y⟩ : ℂ) * ⟨Real.cos (-hd), Real.sin (-hd)⟩) := by
    rw [atan2, rotate_mk hd x y]
  rw [hrot_arg, hxy]
  rw [hxy] at hb1
  exact sectorIdx_eq_of_angle_eq _ _ hangle (Complex.neg_pi_lt_arg _) (Complex.arg_le_pi _)
    (by linarith [hb1.1, hb1.2, hb2.1, hb2.2]) (by linarith [hb1.1, hb1.2, hb2.1, hb2.2])

/-- The code atan2 along the positive x axis is 0. -/
theorem atan2_zero_one : atan2 0 1 = 0 := by
  have h : (⟨1, 0⟩ : ℂ) = 1 := by
    rw [Complex.ext_iff]
    constructor <;> simp
  rw [atan2, h, Complex.arg_one]

/-- The code atan2 along the positive y axis is pi over 2. -/
theorem atan2_one_zero : atan2 1 0 = π / 2 := by
  have h : (⟨0, 1⟩ : ℂ) = Complex.I := by
    rw [Complex.ext_iff]
    constructor <;> simp
  rw [atan2, h, Complex.arg_I]

/-- The code atan2 at the origin is 0, like std::atan2(+0, +0). -/
theorem atan2_zero_zero : atan2 0 0 = 0 := by
  have h : (⟨0, 0⟩ : ℂ) = 0 := by
    rw [Complex.ext_iff]
    constructor <;> simp
  rw [atan2, h, Complex.arg_zero]

/-- Angle 0 lies in sector 0. -/
theorem sectorIdx_zero : sectorIdx 0 = 0 := by
  rw [sectorIdx]
  norm_num

/-- Angle pi over 2 lies in sector 3. -/
theorem sectorIdx_pi_div_two : sectorIdx (π / 2) = 3 := by
  have hpi : (0 : ℝ) < π := Real.pi_pos
  rw [sectorIdx]
  have hd : π / 2 / (2 * π) * 12 = 3 := by
    field_simp
    ring
  rw [hd, if_pos (by norm_num), show ((3 : ℝ)) = ((3 : ℤ) : ℝ) by norm_num, Int.floor_intCast]

/-- The blending sector index of a unit displacement straight ahead of a
+x-moving obstacle at the origin is 0. -/
theorem sectorIndexBlend_ahead : sectorIndexBlend (0, 0) (1, 0) (1, 0) = 0 := by
  simp only [sectorIndexBlend]
  norm_num [atan2_zero_one, sectorIdx_zero]

/-- The blending sector index of a unit displacement to the left of a
+x-moving obstacle at the origin is 3. -/
theorem sectorIndexBlend_left : sectorIndexBlend (0, 0) (1, 0) (0, 1) = 3 := by
  simp only [sectorIndexBlend]
  norm_num [atan2_zero_one, atan2_one_zero, sectorIdx_pi_div_two]

/-- The neutral junction feature block has 72 entries. -/
theorem junctionFeatureBase_length : junctionFeatureBase.length = 72 := rfl

/-- Processing one exit never changes the length of the feature block. -/
theorem processExit_length (pos : ℝ × ℝ) (heading speed range ρ : ℝ)
    (acc : List ℝ) (ex : JunctionExit) :
    (processExit pos heading speed range ρ acc ex).length = acc.length := by
  simp [processExit]

/-- Processing any exit list never changes the length of the feature block. -/
theorem foldl_processExit_length (pos : ℝ × ℝ) (heading speed range ρ : ℝ) :
    ∀ (l : List JunctionExit) (acc : List ℝ),
      (l.foldl (processExit pos heading speed range ρ) acc).length = acc.length := by
  intro l
  induction l with
  | nil => intro acc; rfl
  | cons e es ih => intro acc; rw [List.foldl_cons, ih, processExit_length]

/-- Reading back an in-range write. -/
theorem getD_set_self (l : List ℝ) (i : ℕ) (a : ℝ) (h : i < l.length) :
    (l.set i a).getD i 0 = a := by
  rw [List.getD_eq_getElem _ _ (by simpa using h)]
  simp [List.getElem_set_self]

/-- Reading an index another write does not touch. -/
theorem getD_set_other (l : List ℝ) (i j : ℕ) (a : ℝ) (h : i ≠ j) :
    (l.set i a).getD j 0 = l.getD j 0 := by
  simp [List.getD, List.getElem?_set_ne h]

/-- Blending against the empty probability vector reads only defaults. -/
theorem blendVal_nil (i : ℤ) : blendVal [] i = 0 := by
  simp [blendVal]

/-- Blending against the all-zero probability vector gives 0 at every index. -/
theorem blendVal_zeros (i : ℤ) :
    blendVal [0, 0, 0, 0, 0, 0, 0, 0, 0, 0, 0, 0] i = 0 := by
  rw [blendVal]
  rw [show ([0, 0, 0, 0, 0, 0, 0, 0, 0, 0, 0, 0] : List ℝ) = List.replicate 12 0 from rfl]
  simp only [List.getD_eq_getElem?_getD, List.getElem?_getD_replicate_default_eq]
  norm_num

/-- The assignment fold of the lane-sequence scan: the value of the last
matching segment wins, the segment list is kept, and without a match the
accumulator probability survives. -/
theorem assignLaneSeq_foldl (m : String → Option ℝ) :
    ∀ (l : List LaneSegment) (acc : LaneSequence),
      l.foldl (fun a seg =>
          match m seg.laneId with
          | some v => { a with probability := v }
          | none => a) acc =
        { acc with probability := lastMatchProb m l acc.probability } := by
  intro l
  induction l using List.reverseRecOn with
  | nil =>
    intro acc
    simp [lastMatchProb]
  | append_singleton es e ih =>
    intro acc
    rw [List.foldl_append, List.foldl_cons, List.foldl_nil, ih]
    rw [lastMatchProb, lastMatchProb, List.filter_append]
    cases hme : m e.laneId with
    | none => simp [List.filter_cons, hme]
    | some v => simp [List.filter_cons, hme, List.getLast?_concat]

/-- Lookup in the junction_exit_prob map: the last exit bearing the looked-up
lane id wins; a lane id no exit bears keeps the initial map entry. -/
theorem junctionExitProb_lookup (pos vel : ℝ × ℝ) (p : List ℝ) (lid : String) :
    ∀ (exits : List JunctionExit) (m : String → Option ℝ),
      exits.foldl (fun (acc : String → Option ℝ) ex =>
          Function.update acc ex.exitLaneId
            (some (blendVal p (sectorIndexBlend pos vel ex.exitPosition)))) m lid =
        lastExitEntry pos vel p lid exits (m lid) := by
  intro exits
  induction exits using List.reverseRecOn with
  | nil =>
    intro m
    simp [lastExitEntry]
  | append_singleton es e ih =>
    intro m
    rw [List.foldl_append, List.foldl_cons, List.foldl_nil]
    rw [lastExitEntry, List.filter_append]
    by_cases he : e.exitLaneId = lid
    · simp [List.filter_cons, he, List.getLast?_concat, Function.update_apply]
    · rw [Function.update_apply, if_neg (fun hc => he hc.symm), ih m, lastExitEntry]
      simp [List.filter_cons, he]

end Helpers

/-! Claim theorems. -/

/-- C8: whenever the ego pose container is unavailable, the ego-vehicle
feature extraction returns exactly [100, 100, 0, 0], independent of the
obstacle state and of the history size (including history size 0, for which
no contract fault is raised in this branch). -/
theorem ego_fallback_when_pose_unavailable (historySize : ℕ) (f : Feature) :
    setEgoVehicleFeatureValues none historySize f = some [100, 100, 0, 0] := rfl

/-- C9: the trajectory curvature cost written into an exit sector is always
nonnegative, and it equals 0 for a straight-line exit (heading difference 0
and displacement colinear with the heading, that is diff_y = 0), because the
fitted y cubic is identically zero. -/
theorem curvature_cost_nonneg_and_straight_zero (sp dx dy dh T ρ : ℝ) :
    0 ≤ exitCurvatureCost sp dx dy dh T ρ ∧
      (dh = 0 → dy = 0 → exitCurvatureCost sp dx dy dh T ρ = 0) := by
  constructor
  · exact le_foldl_max _ _ 0
  · intro hdh hdy
    subst hdh
    subst hdy
    have hsin : Real.sin 0 * sp = 0 := by simp
    unfold exitCurvatureCost
    rw [hsin]
    have hyc : computePolynomial3 0 0 0 0 T = ⟨0, 0, 0, 0⟩ := by
      simp [computePolynomial3]
    rw [hyc]
    unfold curvatureCost
    apply foldl_max_zero
    intro t _
    simp [curvatureSample, evalCubicDeriv1, evalCubicDeriv2]

/-- Witness for C9 at speed 1, displacement (1, 0), heading difference 0,
exit time 1 and resolution 1. -/
theorem curvature_cost_nonneg_and_straight_zero_witness :
    0 ≤ exitCurvatureCost 1 1 0 0 1 1 ∧ exitCurvatureCost 1 1 0 0 1 1 = 0 :=
  ⟨(curvature_cost_nonneg_and_straight_zero 1 1 0 0 1 1).1,
    (curvature_cost_nonneg_and_straight_zero 1 1 0 0 1 1).2 rfl rfl⟩

/-- C10: both sector index computations always land in 0..11 (because each
atan2 lies in the interval from -pi exclusive to pi inclusive, the scaled
difference lies strictly between -12 and 12 and the floor after the
conditional +12 lands in 0..11), so every per-sector write at offsets
idx * 6 through idx * 6 + 5 stays inside the 72-entry junction feature block,
and prev_idx and post_idx also lie in 0..11. -/
theorem sector_index_within_bounds (pos vel exitPos : ℝ × ℝ) :
    0 ≤ sectorIndexBlend pos vel exitPos ∧ sectorIndexBlend pos vel exitPos ≤ 11 ∧
    0 ≤ sectorIndexJunction pos vel exitPos ∧ sectorIndexJunction pos vel exitPos ≤ 11 ∧
    (sectorIndexBlend pos vel exitPos).toNat * 6 + 5 < 72 ∧
    (sectorIndexJunction pos vel exitPos).toNat * 6 + 5 < 72 ∧
    0 ≤ prevIdx (sectorIndexBlend pos vel exitPos) ∧
    prevIdx (sectorIndexBlend pos vel exitPos) ≤ 11 ∧
    0 ≤ postIdx (sectorIndexBlend pos vel exitPos) ∧
    postIdx (sectorIndexBlend pos vel exitPos) ≤ 11 := by
  obtain ⟨hb0, hb11⟩ := sectorIndexBlend_mem pos vel exitPos
  obtain ⟨hj0, hj11⟩ := sectorIndexJunction_mem pos vel exitPos
  refine ⟨hb0, hb11, hj0, hj11, by omega, by omega, ?_, ?_, ?_, ?_⟩ <;>
    (simp only [prevIdx, postIdx]; split_ifs <;> omega)

/-- C6 counterexample: at the degenerate input where the exit position equals
the obstacle position (and the raw velocity points along +y), the blending
loop computes sector 9 while the junction feature extraction computes
sector 0, so the two sector computations are not equal for every input. -/
theorem sector_index_mismatch_zero_displacement :
    sectorIndexBlend (0, 0) (0, 1) (0, 0) = 9 ∧
      sectorIndexJunction (0, 0) (0, 1) (0, 0) = 0 ∧ (9 : ℤ) ≠ 0 := by
  have hpi : (0 : ℝ) < π := Real.pi_pos
  refine ⟨?_, ?_, by decide⟩
  · simp only [sectorIndexBlend, Prod.fst, Prod.snd]
    rw [show (0 : ℝ) - 0 = 0 by norm_num, atan2_zero_zero, atan2_one_zero]
    rw [show (0 : ℝ) - π / 2 = -(π / 2) by ring]
    rw [sectorIdx]
    have hd : -(π / 2) / (2 * π) * 12 = -3 := by
      field_simp
      ring
    rw [hd, if_neg (by norm_num), show ((-3 : ℝ) + 12) = ((9 : ℤ) : ℝ) by norm_num,
      Int.floor_intCast]
  · simp only [sectorIndexJunction, rotateNegHeading, Prod.fst, Prod.snd]
    rw [show (0 : ℝ) - 0 = 0 by norm_num]
    simp only [mul_zero, sub_zero, add_zero, zero_sub, zero_add]
    rw [atan2_zero_zero, sectorIdx_zero]

/-- C6 (amended to nonzero displacement): whenever the exit position differs
from the obstacle position, the sector index of the blending loop equals the
sector index of the junction feature extraction; both depend only on the
displacement (translation invariance), and bearings theta and theta + 2 pi
determine the same sector. -/
theorem sector_index_blend_matches_junction (pos vel exitPos : ℝ × ℝ)
    (h : ¬(exitPos.1 - pos.1 = 0 ∧ exitPos.2 - pos.2 = 0)) :
    sectorIndexBlend pos vel exitPos = sectorIndexJunction pos vel exitPos ∧
    (∀ t : ℝ × ℝ, sectorIndexBlend (pos.1 + t.1, pos.2 + t.2) vel
        (exitPos.1 + t.1, exitPos.2 + t.2) = sectorIndexBlend pos vel exitPos) ∧
    (∀ t : ℝ × ℝ, sectorIndexJunction (pos.1 + t.1, pos.2 + t.2) vel
        (exitPos.1 + t.1, exitPos.2 + t.2) = sectorIndexJunction pos vel exitPos) ∧
    (∀ θ : ℝ, sectorIdx (atan2 (Real.sin (θ + 2 * π)) (Real.cos (θ + 2 * π))) =
        sectorIdx (atan2 (Real.sin θ) (Real.cos θ))) := by
  refine ⟨sector_core _ _ _ _ h, ?_, ?_, ?_⟩
  · intro t
    simp [sectorIndexBlend, add_sub_add_right_eq_sub]
  · intro t
    simp [sectorIndexJunction, add_sub_add_right_eq_sub]
  · intro θ
    rw [Real.sin_add_two_pi, Real.cos_add_two_pi]

/-- Witness for C6 at obstacle position (0, 0), velocity (1, 0) and exit
position (1, 0). -/
theorem sector_index_blend_matches_junction_witness :
    sectorIndexBlend (0, 0) (1, 0) (1, 0) = sectorIndexJunction (0, 0) (1, 0) (1, 0) :=
  (sector_index_blend_matches_junction (0, 0) (1, 0) (1, 0) (by norm_num)).1

/-- C7: a lane sequence probability is overwritten exactly when one of its
segments matches a keyed exit: when no segment matches, the sequence is
returned unchanged, so repeated evaluation is idempotent on it; the segment
list itself is never modified; and when segments match, the value of the last
matching segment wins. -/
theorem lane_sequence_overwrite_iff_match (m : String → Option ℝ) (s : LaneSequence) :
    ((∀ seg ∈ s.laneSegment, m seg.laneId = none) → assignLaneSeq m s = s) ∧
    (∀ seg : LaneSegment,
      (s.laneSegment.filter (fun sg => (m sg.laneId).isSome)).getLast? = some seg →
      (assignLaneSeq m s).probability = (m seg.laneId).getD 0) ∧
    (assignLaneSeq m s).laneSegment = s.laneSegment ∧
    ((∀ seg ∈ s.laneSegment, m seg.laneId = none) →
      assignLaneSeq m (assignLaneSeq m s) = assignLaneSeq m s) := by
  have key := assignLaneSeq_foldl m s.laneSegment s
  have hunch : (∀ seg ∈ s.laneSegment, m seg.laneId = none) → assignLaneSeq m s = s := by
    intro hnone
    have hfil : s.laneSegment.filter (fun sg => (m sg.laneId).isSome) = [] := by
      rw [List.filter_eq_nil_iff]
      intro sg hsg
      simp [hnone sg hsg]
    unfold assignLaneSeq
    rw [key, lastMatchProb, hfil]
    simp
  refine ⟨hunch, ?_, ?_, ?_⟩
  · intro seg hseg
    unfold assignLaneSeq
    rw [key, lastMatchProb, hseg]
    simp
  · unfold assignLaneSeq
    rw [key]
  · intro hnone
    rw [hunch hnone]
    exact hunch hnone

/-- Witness for C7 on the keyed map holding lane A only and the sequence
through lanes B then A: the probability is overwritten with the keyed value
and the segment list survives. -/
theorem lane_sequence_overwrite_iff_match_witness :
    (assignLaneSeq mapA seqAB).probability = 7 / 10 ∧
      (assignLaneSeq mapA seqAB).laneSegment = seqAB.laneSegment := by
  have h := lane_sequence_overwrite_iff_match mapA seqAB
  refine ⟨h.2.1 ⟨"A"⟩ ?_, h.2.2.1⟩
  · simp [seqAB, mapA, List.filter_cons]

/-- C5 (amended: stated for an exit that is the last one bearing its lane id,
because the insert-or-assign loop lets a later exit with the same lane id
overwrite an earlier one): for every 12-value probability sequence p, the
value stored under the lane id of such an exit is
p[idx] * 0.5 + p[(idx - 1) mod 12] * 0.25 + p[(idx + 1) mod 12] * 0.25 with
circular index wrap; in particular, for p = [1,0,...,0] an exit in sector 0
blends to 0.5, in sector 1 to 0.25 and in sector 11 to 0.25. -/
theorem blend_stored_value_formula (exits : List JunctionExit) (pos vel : ℝ × ℝ)
    (p : List ℝ) (ex : JunctionExit) (_hp : p.length = 12)
    (hlast : (exits.filter (fun e => e.exitLaneId == ex.exitLaneId)).getLast? = some ex) :
    junctionExitProb exits pos vel p ex.exitLaneId =
      some (p.getD (sectorIndexBlend pos vel ex.exitPosition).toNat 0 * 0.5 +
        p.getD ((sectorIndexBlend pos vel ex.exitPosition - 1) % 12).toNat 0 * 0.25 +
        p.getD ((sectorIndexBlend pos vel ex.exitPosition + 1) % 12).toNat 0 * 0.25) ∧
    blendVal pSectorZero 0 = 0.5 ∧ blendVal pSectorZero 1 = 0.25 ∧
      blendVal pSectorZero 11 = 0.25 := by
  refine ⟨?_, ?_, ?_, ?_⟩
  · unfold junctionExitProb
    rw [junctionExitProb_lookup pos vel p ex.exitLaneId exits (fun _ => none),
      lastExitEntry, hlast]
    obtain ⟨h0, h11⟩ := sectorIndexBlend_mem pos vel ex.exitPosition
    have hprev : prevIdx (sectorIndexBlend pos vel ex.exitPosition) =
        (sectorIndexBlend pos vel ex.exitPosition - 1) % 12 := by
      simp only [prevIdx]
      split_ifs <;> omega
    have hpost : postIdx (sectorIndexBlend pos vel ex.exitPosition) =
        (sectorIndexBlend pos vel ex.exitPosition + 1) % 12 := by
      simp only [postIdx]
      split_ifs <;> omega
    simp only [Option.elim, blendVal, hprev, hpost]
  · rw [show blendVal pSectorZero 0 = 1 * 0.5 + 0 * 0.25 + 0 * 0.25 from rfl]
    norm_num
  · rw [show blendVal pSectorZero 1 = 0 * 0.5 + 1 * 0.25 + 0 * 0.25 from rfl]
    norm_num
  · rw [show blendVal pSectorZero 11 = 0 * 0.5 + 0 * 0.25 + 1 * 0.25 from rfl]
    norm_num

/-- Witness for C5 on a single exit ahead with lane id L1 and the sector-0
probability sequence: the stored value is 1/2. -/
theorem blend_stored_value_formula_witness :
    junctionExitProb [exitAhead] (0, 0) (1, 0) pSectorZero "L1" = some (1 / 2) := by
  have h := (blend_stored_value_formula [exitAhead] (0, 0) (1, 0) pSectorZero exitAhead
    rfl (by simp [exitAhead, List.filter_cons])).1
  rw [show exitAhead.exitLaneId = "L1" from rfl,
    show exitAhead.exitPosition = ((1 : ℝ), (0 : ℝ)) from rfl] at h
  rw [h, sectorIndexBlend_ahead]
  rw [show pSectorZero.getD ((0 : ℤ)).toNat 0 = 1 from rfl,
    show pSectorZero.getD (((0 : ℤ) - 1) % 12).toNat 0 = 0 from rfl,
    show pSectorZero.getD (((0 : ℤ) + 1) % 12).toNat 0 = 0 from rfl]
  norm_num

/-- C5 counterexample: two exits share lane id L; the stored value under L is
the blend of the later exit (sector 3, value 0), not the blend formula of the
first exit (sector 0, value 1/2), so the claim fails for the first exit. -/
theorem blend_duplicate_lane_id_counterexample :
    exitAheadL ∈ [exitAheadL, exitLeftL] ∧ pSectorZero.length = 12 ∧
    junctionExitProb [exitAheadL, exitLeftL] (0, 0) (1, 0) pSectorZero
        exitAheadL.exitLaneId = some 0 ∧
    pSectorZero.getD (sectorIndexBlend (0, 0) (1, 0) exitAheadL.exitPosition).toNat 0 * 0.5 +
        pSectorZero.getD
          ((sectorIndexBlend (0, 0) (1, 0) exitAheadL.exitPosition - 1) % 12).toNat 0 * 0.25 +
        pSectorZero.getD
          ((sectorIndexBlend (0, 0) (1, 0) exitAheadL.exitPosition + 1) % 12).toNat 0 * 0.25
      = 1 / 2 ∧
    some (0 : ℝ) ≠ some (1 / 2 : ℝ) := by
  refine ⟨by simp, rfl, ?_, ?_, by norm_num⟩
  · unfold junctionExitProb
    rw [junctionExitProb_lookup (0, 0) (1, 0) pSectorZero exitAheadL.exitLaneId
      [exitAheadL, exitLeftL] (fun _ => none), lastExitEntry]
    rw [show (List.filter (fun e => e.exitLaneId == exitAheadL.exitLaneId)
      [exitAheadL, exitLeftL]).getLast? = some exitLeftL by rfl]
    simp only [Option.elim]
    rw [show exitLeftL.exitPosition = ((0 : ℝ), (1 : ℝ)) from rfl, sectorIndexBlend_left]
    rw [show blendVal pSectorZero 3 = 0 * 0.5 + 0 * 0.25 + 0 * 0.25 from rfl]
    norm_num
  · rw [show exitAheadL.exitPosition = ((1 : ℝ), (0 : ℝ)) from rfl, sectorIndexBlend_ahead]
    rw [show pSectorZero.getD ((0 : ℤ)).toNat 0 = 1 from rfl,
      show pSectorZero.getD (((0 : ℤ) - 1) % 12).toNat 0 = 0 from rfl,
      show pSectorZero.getD (((0 : ℤ) + 1) % 12).toNat 0 = 0 from rfl]
    norm_num

/-- C4: the forward pass never reads the given feature vector. The source
declares layer_input as an empty vector (reserving capacity only) and never
copies feature_values into it, so the first layer accumulates over
out-of-range reads (modelled as 0): on the one-layer identity-shaped RELU
model with input [5], the code returns [0] while the forward pass as the spec
states it returns [5]. -/
theorem compute_probability_ignores_input :
    computeProbability tinyModel [5] = [0] ∧
      computeProbabilityAsSpecified tinyModel [5] = [5] ∧ (0 : ℝ) ≠ 5 := by
  refine ⟨?_, ?_, by norm_num⟩
  · rw [computeProbability, if_neg (by norm_num [tinyModel])]
    rw [show tinyModel.layers = [{ weights := [[1]], bias := [0], act := .relu }] from rfl]
    rw [List.foldl_cons, List.foldl_nil, layerForward,
      if_neg (show ¬(({ weights := [[1]], bias := [0], act := ActivationFunc.relu } : Layer).act
        = ActivationFunc.softmax) by decide)]
    norm_num [show List.range 1 = [0] from rfl, relu]
  · rw [computeProbabilityAsSpecified, if_neg (by norm_num [tinyModel])]
    rw [show tinyModel.layers = [{ weights := [[1]], bias := [0], act := .relu }] from rfl]
    rw [List.foldl_cons, List.foldl_nil, layerForward,
      if_neg (show ¬(({ weights := [[1]], bias := [0], act := ActivationFunc.relu } : Layer).act
        = ActivationFunc.softmax) by decide)]
    norm_num [show List.range 1 = [0] from rfl, relu]

/-- C1: the single-exit shortcut does skip inference, but the 12 values it
appends are feature_values[3 + 6 i] of the assembled 79-value vector — the
first ego feature followed by misaligned junction fields — not the norm_dist
entries: at this input the first appended value is 100 (the ego fallback)
while the sector-0 norm_dist computed by SetJunctionFeatureValues is 1. -/
theorem single_exit_probability_misaligned :
    ((evaluateF mismatchModel 1 none 1 0 featSingleExit).bind Feature.junctionFeature).map
        (fun jf => jf.junctionMlpProbability.head?) = some (some 100) ∧
    (setJunctionFeatureValues 1 featSingleExit).getD 3 0 = 1 ∧
    (100 : ℝ) ≠ 1 := by
  refine ⟨?_, ?_, by norm_num⟩
  · simp only [evaluateF, extractFeatureValues, setObstacleFeatureValues,
      setEgoVehicleFeatureValues, setJunctionFeatureValues, featSingleExit, exitAhead,
      junctionRangeD, posD, mismatchModel, OBSTACLE_FEATURE_SIZE, EGO_VEHICLE_FEATURE_SIZE,
      JUNCTION_FEATURE_SIZE, processExit_length, foldl_processExit_length,
      junctionFeatureBase_length, show List.range 12 = [0, 1, 2, 3, 4, 5, 6, 7, 8, 9, 10, 11]
        from rfl]
    norm_num [List.getD_cons_succ, List.getD_cons_zero]
  · simp only [setJunctionFeatureValues, featSingleExit, exitAhead, processExit,
      rotateNegHeading, List.foldl_cons, List.foldl_nil, atan2_zero_one, sectorIdx_zero]
    norm_num [atan2_zero_one, sectorIdx_zero]
    rw [List.getElem?_set_eq_of_lt _
      (by norm_num [List.length_set, junctionFeatureBase_length])]
    rfl

/-- C2: when the assembled 79-value feature vector does not match the declared
model input dimension (5 here), ComputeProbability does return the empty
sequence and nothing is appended to the junction feature; but the evaluation
then runs the blending loop against the empty probability vector (reading it
out of range, modelled as 0) and overwrites the matching lane sequence
probability from 1/2 to 0 instead of leaving it untouched. -/
theorem dim_mismatch_still_overwrites :
    (extractFeatureValues 1 none 1 featTwoExit).map
        (fun fv => computeProbability mismatchModel fv) = some [] ∧
    ((evaluateF mismatchModel 1 none 1 0 featTwoExit).bind Feature.junctionFeature).map
        JunctionFeature.junctionMlpProbability = some [] ∧
    (evaluateF mismatchModel 1 none 1 0 featTwoExit).map
        (fun f => f.laneGraph.map LaneSequence.probability) = some [0] ∧
    featTwoExit.laneGraph.map LaneSequence.probability = [1 / 2] := by
  refine ⟨?_, ?_, ?_, by norm_num [featTwoExit, seqL1]⟩
  · simp only [extractFeatureValues, setObstacleFeatureValues, setEgoVehicleFeatureValues,
      setJunctionFeatureValues, featTwoExit, featSingleExit, exitAhead, exitLeft,
      junctionRangeD, posD, mismatchModel, computeProbability, OBSTACLE_FEATURE_SIZE,
      EGO_VEHICLE_FEATURE_SIZE, JUNCTION_FEATURE_SIZE, processExit_length,
      foldl_processExit_length, junctionFeatureBase_length]
    norm_num
  · simp only [evaluateF, extractFeatureValues, setObstacleFeatureValues,
      setEgoVehicleFeatureValues, setJunctionFeatureValues, featTwoExit, featSingleExit,
      exitAhead, exitLeft, junctionRangeD, posD, mismatchModel, computeProbability,
      OBSTACLE_FEATURE_SIZE, EGO_VEHICLE_FEATURE_SIZE, JUNCTION_FEATURE_SIZE,
      processExit_length, foldl_processExit_length, junctionFeatureBase_length]
    norm_num
  · simp only [evaluateF, extractFeatureValues, setObstacleFeatureValues,
      setEgoVehicleFeatureValues, setJunctionFeatureValues, featTwoExit, featSingleExit,
      exitAhead, exitLeft, junctionRangeD, posD, mismatchModel, computeProbability,
      OBSTACLE_FEATURE_SIZE, EGO_VEHICLE_FEATURE_SIZE, JUNCTION_FEATURE_SIZE,
      processExit_length, foldl_processExit_length, junctionFeatureBase_length,
      junctionExitProb, seqL1, blendVal_nil, Function.update_apply]
    norm_num [blendVal_nil]
    simp [assignLaneSeq, Function.update_apply]

/-- C3: an obstacle feature without a position makes the obstacle extractor
return an empty result and ExtractFeatureValues abort with an empty vector,
but Evaluate does not abort: on this single-exit input it appends 12 values
(all reads of the empty vector, modelled as 0) to the junction feature and
overwrites the matching lane sequence probability from 1/2 to 0, instead of
leaving the obstacle unannotated. -/
theorem missing_position_still_annotates :
    featNoPosition.position = none ∧
    ((evaluateF mismatchModel 1 none 1 0 featNoPosition).bind Feature.junctionFeature).map
        JunctionFeature.junctionMlpProbability =
      some [0, 0, 0, 0, 0, 0, 0, 0, 0, 0, 0, 0] ∧
    (evaluateF mismatchModel 1 none 1 0 featNoPosition).map
        (fun f => f.laneGraph.map LaneSequence.probability) = some [0] ∧
    featNoPosition.laneGraph.map LaneSequence.probability = [1 / 2] := by
  refine ⟨rfl, ?_, ?_, by norm_num [featNoPosition, featSingleExit, seqL1]⟩
  · simp only [evaluateF, extractFeatureValues, setObstacleFeatureValues,
      setEgoVehicleFeatureValues, featNoPosition, featSingleExit, exitAhead,
      junctionRangeD, posD, mismatchModel, OBSTACLE_FEATURE_SIZE,
      EGO_VEHICLE_FEATURE_SIZE, JUNCTION_FEATURE_SIZE,
      show List.range 12 = [0, 1, 2, 3, 4, 5, 6, 7, 8, 9, 10, 11] from rfl]
    norm_num
  · simp only [evaluateF, extractFeatureValues, setObstacleFeatureValues,
      setEgoVehicleFeatureValues, featNoPosition, featSingleExit, exitAhead,
      junctionRangeD, posD, mismatchModel, OBSTACLE_FEATURE_SIZE,
      EGO_VEHICLE_FEATURE_SIZE, JUNCTION_FEATURE_SIZE,
      junctionExitProb, seqL1, Function.update_apply,
      show List.range 12 = [0, 1, 2, 3, 4, 5, 6, 7, 8, 9, 10, 11] from rfl]
    norm_num [blendVal_zeros]
    simp [assignLaneSeq, Function.update_apply]

end JunctionMLP
